import Mathlib

/-!
Verification of the VampireHunter repository (`vampire_hunter.py`).

This file gives a shallow embedding of the process-discovery,
classification and lifecycle-control core of `vampire_hunter.py` and
proves the specification claims about it.  External collaborators
(`lsof`, `ps`, `psutil`, signal delivery) are modelled as oracles in an
`Env` structure; the Python control flow, parsing and accounting logic
are translated function by function from the source.  Python exceptions
are modelled with `Except`; machine arithmetic is exact (`Nat`), which
matches the source because every quantity involved is a small
non-negative integer (page counts, RSS kilobytes, list lengths) or a
dyadic rational that IEEE doubles represent exactly in the ranges the
tool meets.
-/

/-- Python exceptions that the embedded fragment can raise or catch.
`nameError` models looking up an unbound global name (carries the name),
`fileNotFoundError` models `subprocess.run` on an absent binary;
`keyboardInterrupt` and `eofError` are the two exceptions the
interactive loops catch around `input()`. -/
inductive PyExc where
  | nameError (n : String)
  | fileNotFoundError
  | keyboardInterrupt
  | eofError
deriving DecidableEq, Repr

/-- Characters Python's `str.strip` / `str.split` treat as whitespace
(ASCII fragment; the tool only meets ASCII utility output). -/
def isPyWs (c : Char) : Bool :=
  c = ' ' || c = '\t' || c = '\n' || c = '\r' || c = '\x0b' || c = '\x0c'

/-- Accumulator-based splitter behind `pySplit`. -/
def splitWsAux : List Char → List Char → List String
  | [], acc => if acc.isEmpty then [] else [String.mk acc.reverse]
  | c :: cs, acc =>
    if isPyWs c then
      if acc.isEmpty then splitWsAux cs []
      else String.mk acc.reverse :: splitWsAux cs []
    else splitWsAux cs (c :: acc)

/-- Python `s.split()` (no argument): split on runs of whitespace,
discarding empty fields and outer whitespace. -/
def pySplit (s : String) : List String :=
  splitWsAux s.toList []

/-- Python `s.split(None, 1)`: at most one split; leading whitespace is
dropped, the first whitespace run after the first token separates it
from the verbatim remainder. -/
def pySplit1 (s : String) : List String :=
  let cs := s.toList.dropWhile isPyWs
  let tok := cs.takeWhile (fun c => !isPyWs c)
  let rest := (cs.dropWhile (fun c => !isPyWs c)).dropWhile isPyWs
  if tok.isEmpty then []
  else if rest.isEmpty then [String.mk tok]
  else [String.mk tok, String.mk rest]

/-- Python `s.strip()` (ASCII whitespace fragment). -/
def pyStrip (s : String) : String :=
  String.mk (((s.toList.dropWhile isPyWs).reverse.dropWhile isPyWs).reverse)

/-- Python `s.lower()` (ASCII fragment; the inputs compared in the menu
and the classifier keywords are ASCII). -/
def pyLower (s : String) : String :=
  String.mk (s.toList.map Char.toLower)

/-- Python `s.isdigit()` on the ASCII strings the menu reads: nonempty
and all decimal digits. -/
def pyIsDigit (s : String) : Bool :=
  !s.toList.isEmpty && s.toList.all Char.isDigit

/-- Numeric value of a digit string. -/
def natOfDigits (l : List Char) : Nat :=
  List.foldl (fun acc c => acc * 10 + (c.toNat - 48)) 0 l

/-- Python `int(s)` restricted to the digit strings the tool feeds it
(`lsof` PID column, `ps` RSS column, an `isdigit`-guarded menu choice);
`none` models the `ValueError` the surrounding code catches. -/
def parseNat (s : String) : Option Nat :=
  if pyIsDigit s then some (natOfDigits s.toList) else none

/-- Rounds `t / den` to the nearest integer, ties to even — the
rounding IEEE-754 formatting applies for `f-string` `:.1f` output on
the exactly-representable dyadic quotients `kb / 2^10` and
`kb / 2^20` this program formats. -/
def roundHalfEven (t den : Nat) : Nat :=
  let q := t / den
  let r := t % den
  if 2 * r < den then q
  else if den < 2 * r then q + 1
  else if q % 2 = 0 then q else q + 1

/-- Renders `num / den` with exactly one decimal digit, the model of
the Python fragment `f-string` with format spec `:.1f` applied to
`num/den`. -/
def oneDecimal (num den : Nat) : String :=
  let rounded := roundHalfEven (10 * num) den
  toString (rounded / 10) ++ "." ++ toString (rounded % 10)

/-- Model of `format_memory` (vampire_hunter.py lines 44-51): GB with
one decimal at and above 1048576 KB, MB with one decimal at and above
1024 KB, else integer KB. -/
def format_memory (mem_kb : Nat) : String :=
  if 1048576 ≤ mem_kb then oneDecimal mem_kb 1048576 ++ " GB"
  else if 1024 ≤ mem_kb then oneDecimal mem_kb 1024 ++ " MB"
  else toString mem_kb ++ " KB"

/-- Outcome of the `subprocess.run(['lsof', ...], check=True)` call at
lines 332-333: captured stdout lines (after `strip().split('\n')`) on
exit 0, `CalledProcessError` on a non-zero exit, `FileNotFoundError`
when the binary is absent from the host. -/
inductive LsofResult where
  | ok (out : List String)
  | calledProcessError
  | fileNotFound
deriving DecidableEq, Repr

/-- Outcome of the per-PID `subprocess.run(['ps', ...], check=True)`
call at lines 370-371: captured stdout lines on exit 0, or
`CalledProcessError` on a non-zero exit (the usual failure: `ps -p` of
a vanished PID).  An absent `ps` binary is not modelled: `main` (lines
594-599) refuses to start unless `lsof`, `vm_stat` and `ps` all
resolve, so every snapshot runs with `ps` present. -/
inductive PsResult where
  | error
  | out (stdoutLines : List String)
deriving DecidableEq, Repr

/-- Outcome of delivering a signal through `psutil` in `kill_process`
(lines 400-419): each constructor is one of the except-arms. -/
inductive KillOutcome where
  | success
  | noSuchProcess
  | accessDenied
  | otherError
deriving DecidableEq, Repr

/-- Oracles for the external collaborators: `lsof` output, the
`psutil.Process(pid).memory_info()/cmdline()` lookup (`none` models
`NoSuchProcess`/`AccessDenied`; `some (memKB, cmd)` the computed
RSS-kilobyte figure and joined command line), the per-PID `ps`
invocation, and signal delivery (`force = true` is SIGKILL). -/
structure Env where
  lsof : LsofResult
  psutil : Nat → Option (Nat × String)
  ps : String → PsResult
  kill : Nat → Bool → KillOutcome

/-- One listening-socket record, the dict built at lines 384-391. -/
structure ProcRecord where
  pid : String
  name : String
  port : String
  memory_kb : Nat
  memory_formatted : String
  command : String
deriving DecidableEq, Repr

/-- Primary per-process lookup (lines 362-366): `int(pid)` then
`psutil`; `none` is the `(NoSuchProcess, AccessDenied, ValueError)`
failure the code catches at line 367. -/
def primary_lookup (psu : Nat → Option (Nat × String)) (pid : String) :
    Option (Nat × String) :=
  match parseNat pid with
  | none => none
  | some n => psu n

/-- Parse of the `ps -o rss,command= -p pid` fallback output (lines
369-376): `some (rss, cmd)` when the first stdout line yields an
integer RSS (a missing command column is substituted by the
placeholder, line 376); `none` when the invocation fails, the output
has no usable first line, or the RSS column is not an integer
(`ValueError`, caught at line 380). -/
def psDetails (psf : String → PsResult) (pid : String) :
    Option (Nat × String) :=
  match psf pid with
  | PsResult.error => none
  | PsResult.out stdoutLines =>
    match stdoutLines with
    | [] => none
    | first :: _ =>
      if first = "" then none
      else
        match pySplit1 first with
        | [] => none
        | [tok] =>
          match parseNat tok with
          | some m => some (m, "Details unavailable")
          | none => none
        | tok :: rest :: _ =>
          match parseNat tok with
          | some m => some (m, rest)
          | none => none

/-- The `ps` fallback value pair (lines 368-382): parsed values when
available, otherwise the zero/placeholder sentinels assigned at lines
377-379 and 381-382. -/
def ps_fallback (psf : String → PsResult) (pid : String) : Nat × String :=
  match psDetails psf pid with
  | some v => v
  | none => (0, "Details unavailable")

/-- Builds one record dict (lines 361-391): primary `psutil` lookup,
`ps` fallback on its failure, then the record fields. -/
def buildRecord (psu : Nat → Option (Nat × String)) (psf : String → PsResult)
    (pid name port : String) : ProcRecord :=
  let d :=
    match primary_lookup psu pid with
    | some v => v
    | none => ps_fallback psf pid
  ⟨pid, name, port, d.1, format_memory d.1, d.2⟩

/-- Loop state of the row loop at lines 342-393: the `seen_processes`
key set (as a list queried with `contains`) and the accumulated
`processes` records. -/
structure BuildState where
  seen : List String
  recs : List ProcRecord
deriving Repr

/-- One iteration of the row loop (lines 345-393): split the row, skip
it when it has fewer than 10 fields (line 347), extract pid/name/port
(lines 351-353), skip when the `pid:port` key was already seen (lines
356-359), else record the key and append the built record. -/
def processLine (psu : Nat → Option (Nat × String)) (psf : String → PsResult)
    (st : BuildState) (line : String) : BuildState :=
  let parts := pySplit line
  if parts.length < 10 then st
  else
    let pid := parts.getD 1 ""
    let name := parts.getD 0 ""
    let port := parts.getD 8 ""
    let key := pid ++ ":" ++ port
    if st.seen.contains key then st
    else ⟨key :: st.seen, st.recs ++ [buildRecord psu psf pid name port]⟩

/-- Records built from a batch of data rows (the loop at lines
342-393), with the dedup set rebuilt from scratch. -/
def buildRecords (psu : Nat → Option (Nat × String)) (psf : String → PsResult)
    (rows : List String) : List ProcRecord :=
  (List.foldl (processLine psu psf) ⟨[], []⟩ rows).recs

/-- Model of `get_listening_processes` (lines 328-398).  The result
pairs the returned record list with the diagnostics logged by the
function (the `log_error` at line 397; exception detail elided).  Only
`subprocess.CalledProcessError` is caught (line 396); a
`FileNotFoundError` from an absent `lsof` binary escapes as an
uncaught exception. -/
def get_listening_processes (env : Env) :
    Except PyExc (List ProcRecord × List String) :=
  match env.lsof with
  | LsofResult.fileNotFound => Except.error PyExc.fileNotFoundError
  | LsofResult.calledProcessError => Except.ok ([], ["Error running lsof"])
  | LsofResult.ok ls =>
    if ls.length ≤ 1 then Except.ok ([], [])
    else Except.ok (buildRecords env.psutil env.ps (ls.drop 1), [])

/-- Field index 1 of a raw row, Python `parts[1]` (line 351). -/
def rowPid (line : String) : String := (pySplit line).getD 1 ""

/-- Field index 0 of a raw row, Python `parts[0]` (line 352). -/
def rowName (line : String) : String := (pySplit line).getD 0 ""

/-- Field index 8 of a raw row, Python `parts[8]` (line 353). -/
def rowPort (line : String) : String := (pySplit line).getD 8 ""

/-- The dedup key `f-string` `pid:port` of line 356. -/
def rowKey (line : String) : String := rowPid line ++ ":" ++ rowPort line

/-- Return value of `kill_process` (lines 400-419): `true` exactly when
the signal was delivered; `int(pid)` failure and every `psutil`
exception fall into an except-arm returning `False`.  The name
parameter only feeds log text. -/
def kill_process (env : Env) (pid _name : String) (force : Bool) : Bool :=
  match parseNat pid with
  | none => false
  | some n =>
    match env.kill n force with
    | KillOutcome.success => true
    | _ => false

/-- The names bound by `def` statements at module level in
`vampire_hunter.py` (with `main` defined twice, lines 554 and 587, the
second shadowing the first).  This is the global namespace a call
expression resolves against. -/
def moduleDefs : List String :=
  ["log_info", "log_success", "log_warning", "log_error", "log_vampire",
   "format_memory", "get_system_memory_info", "find_node_packages",
   "display_node_packages", "interactive_node_package_manager",
   "get_memory_health_report", "display_memory_health",
   "get_listening_processes", "kill_process", "display_processes",
   "interactive_menu", "show_help", "main"]

/-- Model of `get_memory_health_report` (lines 268-284).  Line 270
(`get_system_memory_info()`) is total: that function catches every
exception and at worst returns an empty dict.  Line 271 then evaluates
the call `get_node_processes()`, which first resolves the name
`get_node_processes` in the module namespace; when the name is unbound
the expression raises `NameError` before any report is assembled, so
the report payload is reachable only under that resolution and is
elided to `Unit`. -/
def get_memory_health_report : Except PyExc Unit :=
  if moduleDefs.contains "get_node_processes" then Except.ok ()
  else Except.error (PyExc.nameError "get_node_processes")

/-- Model of `display_memory_health` (lines 286-326): builds the report
at line 288 and then only renders it, so it raises exactly when the
report does. -/
def display_memory_health : Except PyExc Unit :=
  match get_memory_health_report with
  | Except.ok _ => Except.ok ()
  | Except.error e => Except.error e

/-- One iteration of the argument-less `main` loop (lines 606-612)
up to the menu: scan (`get_listening_processes`), display the snapshot
(`display_processes`, pure rendering), then `display_memory_health`. -/
def main_loop_iteration (env : Env) : Except PyExc Unit :=
  match get_listening_processes env with
  | Except.error e => Except.error e
  | Except.ok _ => display_memory_health

/-- One process-termination attempt made by the interactive menu: the
PID and display name passed to `kill_process` and whether the `force`
flag was set. -/
structure KillAction where
  pid : String
  name : String
  force : Bool
deriving DecidableEq, Repr

/-- Observable outcome of one `interactive_menu` iteration: the
termination attempts made, the summary/status lines logged, and the
exception escaping the loop body, if any (`KeyboardInterrupt` and
`EOFError` are caught at lines 517-524 and therefore never appear). -/
structure StepResult where
  kills : List KillAction
  logs : List String
  exc : Option PyExc
deriving Repr

/-- Membership test `confirm in ['y', 'yes']` of lines 488 and 506. -/
def inYesList (s : String) : Bool :=
  s == "y" || s == "yes"

/-- An operator reply counts as affirmative when, stripped and
lowercased the way the menu reads it, it is `y` or `yes`. -/
def is_affirmative (s : String) : Bool :=
  inYesList (pyLower (pyStrip s))

/-- The bulk-kill loop of lines 489-492: attempts a graceful
termination of every record in order, recording each attempt and
accumulating the success count. -/
def bulkFold (env : Env) (st : List KillAction × Nat)
    (procs : List ProcRecord) : List KillAction × Nat :=
  List.foldl
    (fun (st : List KillAction × Nat) p =>
      (st.1 ++ [⟨p.pid, p.name, false⟩],
       if kill_process env p.pid p.name false then st.2 + 1 else st.2))
    st procs

/-- One iteration of `interactive_menu` (lines 460-526) on the current
snapshot.  `choiceRaw` is the menu input (stripped and lowercased at
line 476), `confirmRaw` the reply read at whichever confirmation
prompt the chosen branch issues, `forceRaw` the reply at the
force-kill prompt of the single-kill flow (line 508).  Branches are in
source order: `n`, `q`, `a` (bulk kill, lines 486-495), `m` (memory
health, line 497 — its `NameError` is not among the exceptions caught
at lines 517-524), `r`, numeric choice (lines 501-514), else a usage
hint. -/
def menu_step (env : Env) (choiceRaw confirmRaw forceRaw : String)
    (processes : List ProcRecord) : StepResult :=
  let choice := pyLower (pyStrip choiceRaw)
  if choice = "n" then ⟨[], [], none⟩
  else if choice = "q" then ⟨[], ["Exiting"], none⟩
  else if choice = "a" then
    let confirm := pyLower (pyStrip confirmRaw)
    if inYesList confirm then
      let st := bulkFold env ([], 0) processes
      ⟨st.1,
       ["Killed " ++ toString st.2 ++ "/" ++ toString processes.length
          ++ " processes"],
       none⟩
    else ⟨[], ["Cancelled"], none⟩
  else if choice = "m" then
    ⟨[], [],
      match display_memory_health with
      | Except.ok _ => none
      | Except.error e =>
        if e = PyExc.keyboardInterrupt ∨ e = PyExc.eofError then none
        else some e⟩
  else if choice = "r" then ⟨[], ["Refreshing process list"], none⟩
  else if pyIsDigit choice then
    let index := (parseNat choice).getD 0
    if 1 ≤ index ∧ index ≤ processes.length then
      match processes[index - 1]? with
      | none => ⟨[], [], none⟩
      | some proc =>
        let confirm := pyLower (pyStrip confirmRaw)
        if inYesList confirm then
          if kill_process env proc.pid proc.name false then
            ⟨[⟨proc.pid, proc.name, false⟩], [], none⟩
          else
            let fc := pyLower (pyStrip forceRaw)
            if inYesList fc then
              ⟨[⟨proc.pid, proc.name, false⟩, ⟨proc.pid, proc.name, true⟩],
               [], none⟩
            else ⟨[⟨proc.pid, proc.name, false⟩], [], none⟩
        else ⟨[], ["Cancelled"], none⟩
    else ⟨[], ["Invalid choice"], none⟩
  else ⟨[], ["Invalid choice"], none⟩

/-- One auxiliary (Node.js) process record as consumed by
`display_memory_health` (field accesses at lines 311-321): the dict
keys `pid`, `mem_percent`, `rss_kb`, `rss_formatted`, `type`,
`command`; `ptype` stands for the `type` key. -/
structure NodeProc where
  pid : Nat
  mem_percent : ℚ
  rss_kb : Nat
  rss_formatted : String
  ptype : String
  command : String
deriving DecidableEq, Repr

/-- Stable descending insertion used to model the line 311 sort: `a` is
placed before the first element whose `rss_kb` does not exceed its
own, so earlier-enumerated elements stay ahead of later ties. -/
def insertDesc (a : NodeProc) : List NodeProc → List NodeProc
  | [] => [a]
  | b :: bs =>
    if b.rss_kb ≤ a.rss_kb then a :: b :: bs
    else b :: insertDesc a bs

/-- Model of `sorted(node_processes, key=lambda x: x['rss_kb'],
reverse=True)` at line 311.  Python's `sorted` is a stable sort by the
key with all comparisons reversed; a stable sort by a total preorder is
a unique function, and right-to-left insertion computes it. -/
def sortNodesDesc (l : List NodeProc) : List NodeProc :=
  List.foldr insertDesc [] l

/-- Prefix test on character lists (first argument is the haystack). -/
def startsWithChars : List Char → List Char → Bool
  | _, [] => true
  | [], _ :: _ => false
  | a :: as, b :: bs => a == b && startsWithChars as bs

/-- Substring test on character lists, the model of Python
`needle in hay` on strings (empty needle matches). -/
def hasSubChars : List Char → List Char → Bool
  | [], needle => needle.isEmpty
  | a :: t, needle => startsWithChars (a :: t) needle || hasSubChars t needle

/-- Case-insensitive substring match of a keyword against a command
string. -/
def containsCI (hay needle : String) : Bool :=
  hasSubChars (pyLower hay).toList (pyLower needle).toList

/-- Classification label of an auxiliary process record. -/
inductive Kind where
  | relevant
  | noise
deriving DecidableEq, Repr

/-- Modelled from the spec: the relevant-vs-noise classifier lives in
`get_node_processes`, which is absent from the sources (only its
caller at line 271 and its consumers remain), so the rule is taken
from spec section 4.4: exclusion and inclusion substring lists are
matched case-insensitively against the command text, and an exclusion
match suppresses the record unless an inclusion substring also
matches. -/
def classifyNodeProcess (excl incl : List String) (cmd : String) : Kind :=
  if excl.any (fun k => containsCI cmd k)
      && !(incl.any (fun k => containsCI cmd k)) then Kind.noise
  else Kind.relevant

/-- The `pid:port` dedup key of a built record; `buildRecord` copies
`pid` and `port` through unchanged, so this is the key its source row
was registered under. -/
def recKey (r : ProcRecord) : String := r.pid ++ ":" ++ r.port

/-- Concrete oracle: `psutil` knows PID 100 only. -/
def psuW : Nat → Option (Nat × String) :=
  fun n => if n = 100 then some (2048, "node server.js") else none

/-- Concrete oracle: `ps` answers for PID 200 only. -/
def psfW : String → PsResult :=
  fun pid => if pid = "200" then PsResult.out ["512 python app.py"] else PsResult.error

/-- Concrete oracle: only PID 100 can be terminated. -/
def kfW : Nat → Bool → KillOutcome :=
  fun n _ => if n = 100 then KillOutcome.success else KillOutcome.noSuchProcess

/-- A well-formed `lsof` data row for PID 100 on port `*:3000`. -/
def rowW1 : String := "node 100 u 23u IPv4 0x0 0t0 TCP *:3000 (LISTEN)"

/-- A well-formed `lsof` data row for PID 200 on port `*:8000`. -/
def rowW2 : String := "py 200 u 5u IPv4 0x1 0t0 TCP *:8000 (LISTEN)"

/-- A second row carrying the same `pid:port` key as `rowW1` but
different other fields. -/
def rowW1b : String := "node 100 u 24u IPv6 0x2 0t0 TCP *:3000 (LISTEN)"

/-- An environment in which every external utility behaves and `lsof`
reports the two listening sockets above. -/
def envW : Env := ⟨LsofResult.ok ["HEADER", rowW1, rowW2], psuW, psfW, kfW⟩

/-- An environment whose `lsof` binary is absent. -/
def envLsofMissing : Env := ⟨LsofResult.fileNotFound, psuW, psfW, kfW⟩

/-- An environment with no listening sockets at all. -/
def envEmpty : Env :=
  ⟨LsofResult.ok [], fun _ => none, fun _ => PsResult.error,
   fun _ _ => KillOutcome.noSuchProcess⟩

/-- Snapshot record for PID 100 used in concrete menu runs. -/
def recW1 : ProcRecord :=
  ⟨"100", "node", "*:3000", 2048, "2.0 MB", "node server.js"⟩

/-- Snapshot record for PID 201, which no oracle can terminate. -/
def recW2 : ProcRecord :=
  ⟨"201", "py", "*:8000", 512, "512 KB", "python app.py"⟩

/-- Auxiliary process records with a tie in resident memory between
the first and third. -/
def nodeA : NodeProc := ⟨1, 0, 5, "5 KB", "relevant", "node a"⟩

/-- The heaviest auxiliary process record of the concrete trio. -/
def nodeB : NodeProc := ⟨2, 0, 9, "9 KB", "relevant", "node b"⟩

/-- The record tied with `nodeA` but enumerated after it. -/
def nodeC : NodeProc := ⟨3, 0, 5, "5 KB", "relevant", "node c"⟩

/-- Shape of a one-decimal rendering: an integer part, a dot, and a
single digit. -/
theorem oneDecimal_shape (n m : Nat) :
    ∃ i d : Nat, d < 10 ∧ oneDecimal n m = toString i ++ "." ++ toString d :=
  ⟨roundHalfEven (10 * n) m / 10, roundHalfEven (10 * n) m % 10,
   Nat.mod_lt _ (by norm_num), rfl⟩

/-- C6: `format_memory` renders gigabytes with one decimal exactly from
1048576 KB up, megabytes with one decimal exactly from 1024 KB up to
1048575 KB, and integer kilobytes below 1024, with the anchor values
the specification lists; it is a total function by construction. -/
theorem c6_format_memory_thresholds :
    (∀ kb : Nat, 1048576 ≤ kb →
      format_memory kb = oneDecimal kb 1048576 ++ " GB"
      ∧ ∃ i d : Nat, d < 10
          ∧ format_memory kb = toString i ++ "." ++ toString d ++ " GB")
    ∧ (∀ kb : Nat, 1024 ≤ kb → kb < 1048576 →
      format_memory kb = oneDecimal kb 1024 ++ " MB"
      ∧ ∃ i d : Nat, d < 10
          ∧ format_memory kb = toString i ++ "." ++ toString d ++ " MB")
    ∧ (∀ kb : Nat, kb < 1024 → format_memory kb = toString kb ++ " KB")
    ∧ format_memory 0 = "0 KB" ∧ format_memory 512 = "512 KB"
    ∧ format_memory 1023 = "1023 KB" ∧ format_memory 1024 = "1.0 MB"
    ∧ format_memory 1048575 = "1024.0 MB"
    ∧ format_memory 1048576 = "1.0 GB" := by
  refine ⟨?_, ?_, ?_, by decide, by decide, by decide, by decide,
    by decide, by decide⟩
  · intro kb h
    have h1 : format_memory kb = oneDecimal kb 1048576 ++ " GB" := by
      unfold format_memory
      rw [if_pos h]
    obtain ⟨i, d, hd, he⟩ := oneDecimal_shape kb 1048576
    exact ⟨h1, i, d, hd, by rw [h1, he]⟩
  · intro kb h1024 hlt
    have h1 : format_memory kb = oneDecimal kb 1024 ++ " MB" := by
      unfold format_memory
      rw [if_neg (Nat.not_le.mpr hlt), if_pos h1024]
    obtain ⟨i, d, hd, he⟩ := oneDecimal_shape kb 1024
    exact ⟨h1, i, d, hd, by rw [h1, he]⟩
  · intro kb hlt
    unfold format_memory
    rw [if_neg (by omega), if_neg (Nat.not_le.mpr hlt)]

/-- Closed instance of the C6 theorem at 2097152 KB. -/
theorem c6_format_memory_witness :
    1048576 ≤ 2097152
    ∧ format_memory 2097152 = oneDecimal 2097152 1048576 ++ " GB" :=
  ⟨by decide, (c6_format_memory_thresholds.1 2097152 (by decide)).1⟩

/-- C3 counterexample: with the `lsof` binary absent the invocation
raises `FileNotFoundError`, which `get_listening_processes` does not
catch (line 396 catches `CalledProcessError` only), so the function
propagates an exception instead of returning an empty list. -/
theorem c3_counterexample_missing_binary_raises :
    get_listening_processes envLsofMissing
      = Except.error PyExc.fileNotFoundError := rfl

/-- C3 amended: on a non-zero exit status of the listing utility,
`get_listening_processes` returns an empty list plus a diagnostic and
propagates no exception; if the utility binary is absent, the
invocation raises `FileNotFoundError`, which propagates to the caller
(the program only avoids this because `main`, lines 594-599, exits
when `lsof` is missing). -/
theorem c3_enumeration_failure_amended (psu : Nat → Option (Nat × String))
    (psf : String → PsResult) (kf : Nat → Bool → KillOutcome) :
    get_listening_processes ⟨LsofResult.calledProcessError, psu, psf, kf⟩
      = Except.ok ([], ["Error running lsof"])
    ∧ get_listening_processes ⟨LsofResult.fileNotFound, psu, psf, kf⟩
      = Except.error PyExc.fileNotFoundError :=
  ⟨rfl, rfl⟩

/-- C1: `get_node_processes` is bound by no `def` of the module, so
`get_memory_health_report` raises `NameError` at line 271,
`display_memory_health` propagates it, every argument-less main-loop
iteration that gets past the snapshot ends in that uncaught
`NameError`, and choosing `m` at the menu raises it as well (the menu
catches only `KeyboardInterrupt` and `EOFError`). -/
theorem c1_get_node_processes_undefined_crash :
    moduleDefs.contains "get_node_processes" = false
    ∧ get_memory_health_report
        = Except.error (PyExc.nameError "get_node_processes")
    ∧ display_memory_health
        = Except.error (PyExc.nameError "get_node_processes")
    ∧ (∀ env procs logs,
        get_listening_processes env = Except.ok (procs, logs) →
        main_loop_iteration env
          = Except.error (PyExc.nameError "get_node_processes"))
    ∧ (∀ env choiceRaw confirmRaw forceRaw procs,
        pyLower (pyStrip choiceRaw) = "m" →
        (menu_step env choiceRaw confirmRaw forceRaw procs).exc
          = some (PyExc.nameError "get_node_processes")) := by
  refine ⟨by decide, rfl, rfl, ?_, ?_⟩
  · intro env procs logs h
    unfold main_loop_iteration
    rw [h]
    rfl
  · intro env choiceRaw confirmRaw forceRaw procs hm
    simp only [menu_step]
    rw [hm]
    rfl

/-- Closed instance of the C1 theorem: in the environment with no
listening sockets the snapshot succeeds and the loop iteration still
crashes with the `NameError`, as does the `m` menu choice. -/
theorem c1_crash_witness :
    get_listening_processes envEmpty = Except.ok ([], [])
    ∧ main_loop_iteration envEmpty
        = Except.error (PyExc.nameError "get_node_processes")
    ∧ (menu_step envEmpty "m" "" "" []).exc
        = some (PyExc.nameError "get_node_processes") :=
  ⟨rfl,
   c1_get_node_processes_undefined_crash.2.2.2.1 envEmpty [] [] rfl,
   c1_get_node_processes_undefined_crash.2.2.2.2 envEmpty "m" "" "" []
     (by decide)⟩

/-- C10: whenever some exclusion keyword and some inclusion keyword
both match the command text case-insensitively, the classifier labels
the record relevant, not noise. -/
theorem c10_inclusion_overrides_exclusion (excl incl : List String)
    (cmd : String)
    (hex : excl.any (fun k => containsCI cmd k) = true)
    (hin : incl.any (fun k => containsCI cmd k) = true) :
    classifyNodeProcess excl incl cmd = Kind.relevant := by
  unfold classifyNodeProcess
  rw [hex, hin]
  rfl

/-- Closed instance of the C10 theorem on a command containing both an
exclusion keyword and an inclusion keyword in mixed case. -/
theorem c10_override_witness :
    (["helper"].any (fun k => containsCI "node HELPER Server.js" k) = true)
    ∧ (["server"].any (fun k => containsCI "node HELPER Server.js" k) = true)
    ∧ classifyNodeProcess ["helper"] ["server"] "node HELPER Server.js"
        = Kind.relevant :=
  ⟨by decide, by decide,
   c10_inclusion_overrides_exclusion ["helper"] ["server"]
     "node HELPER Server.js" (by decide) (by decide)⟩

/-- A row with fewer than 10 fields leaves the loop state unchanged
(the `continue` at lines 347-348). -/
theorem processLine_invalid (psu : Nat → Option (Nat × String))
    (psf : String → PsResult) (st : BuildState) (line : String)
    (h : (pySplit line).length < 10) :
    processLine psu psf st line = st := by
  simp only [processLine]
  rw [if_pos h]

/-- A valid row whose key was already registered leaves the loop state
unchanged (the `continue` at lines 357-358). -/
theorem processLine_seen (psu : Nat → Option (Nat × String))
    (psf : String → PsResult) (st : BuildState) (line : String)
    (h : ¬ (pySplit line).length < 10) (hs : rowKey line ∈ st.seen) :
    processLine psu psf st line = st := by
  have hs' : st.seen.contains
      ((pySplit line).getD 1 "" ++ ":" ++ (pySplit line).getD 8 "") = true :=
    List.elem_iff.mpr hs
  simp only [processLine]
  rw [if_neg h, if_pos hs']

/-- A valid first-seen row registers its key and appends its record. -/
theorem processLine_fresh (psu : Nat → Option (Nat × String))
    (psf : String → PsResult) (st : BuildState) (line : String)
    (h : ¬ (pySplit line).length < 10) (hs : rowKey line ∉ st.seen) :
    processLine psu psf st line =
      ⟨rowKey line :: st.seen,
       st.recs ++ [buildRecord psu psf (rowPid line) (rowName line)
                     (rowPort line)]⟩ := by
  have hs' : ¬ st.seen.contains
      ((pySplit line).getD 1 "" ++ ":" ++ (pySplit line).getD 8 "") = true :=
    fun hc => hs (List.elem_iff.mp hc)
  simp only [processLine]
  rw [if_neg h, if_neg hs']
  rfl

/-- One loop iteration never forgets a registered key. -/
theorem seen_subset_processLine (psu : Nat → Option (Nat × String))
    (psf : String → PsResult) (st : BuildState) (line : String) :
    st.seen ⊆ (processLine psu psf st line).seen := by
  by_cases hv : (pySplit line).length < 10
  · rw [processLine_invalid psu psf st line hv]
    exact fun a ha => ha
  · by_cases hs : rowKey line ∈ st.seen
    · rw [processLine_seen psu psf st line hv hs]
      exact fun a ha => ha
    · rw [processLine_fresh psu psf st line hv hs]
      exact List.subset_cons_self _ _

/-- The whole loop never forgets a registered key. -/
theorem seen_subset_foldl (psu : Nat → Option (Nat × String))
    (psf : String → PsResult) (xs : List String) (st : BuildState) :
    st.seen ⊆ (List.foldl (processLine psu psf) st xs).seen := by
  induction xs generalizing st with
  | nil => exact fun a h => h
  | cons x xs ih =>
    rw [List.foldl_cons]
    exact fun a ha =>
      ih (processLine psu psf st x)
        (seen_subset_processLine psu psf st x ha)

/-- After the loop has passed a valid row, that row's key is
registered. -/
theorem key_mem_seen_foldl (psu : Nat → Option (Nat × String))
    (psf : String → PsResult) (xs : List String) (st : BuildState)
    (line : String) (hmem : line ∈ xs)
    (hval : ¬ (pySplit line).length < 10) :
    rowKey line ∈ (List.foldl (processLine psu psf) st xs).seen := by
  induction xs generalizing st with
  | nil => cases hmem
  | cons x xs ih =>
    rw [List.foldl_cons]
    rcases List.mem_cons.mp hmem with h | h
    · subst h
      apply seen_subset_foldl
      by_cases hs : rowKey line ∈ st.seen
      · rw [processLine_seen psu psf st line hval hs]; exact hs
      · rw [processLine_fresh psu psf st line hval hs]
        exact List.mem_cons_self _ _
    · exact ih _ h

/-- A valid row whose key already occurred on a valid earlier row
contributes nothing: the run with the duplicate row equals the run
without it. -/
theorem foldl_dup_drop (psu : Nat → Option (Nat × String))
    (psf : String → PsResult) (xs ys : List String) (rowB : String)
    (hvalB : ¬ (pySplit rowB).length < 10)
    (h : ∃ rA ∈ xs, ¬ (pySplit rA).length < 10 ∧ rowKey rA = rowKey rowB)
    (st : BuildState) :
    List.foldl (processLine psu psf) st (xs ++ rowB :: ys)
      = List.foldl (processLine psu psf) st (xs ++ ys) := by
  obtain ⟨rA, hmem, hvalA, hkey⟩ := h
  have hskip : processLine psu psf (List.foldl (processLine psu psf) st xs)
      rowB = List.foldl (processLine psu psf) st xs := by
    apply processLine_seen psu psf _ rowB hvalB
    rw [← hkey]
    exact key_mem_seen_foldl psu psf xs st rA hmem hvalA
  rw [List.foldl_append, List.foldl_append, List.foldl_cons, hskip]

/-- Invariant of the loop state: every accumulated record's key is
registered in the dedup set. -/
def stInv (st : BuildState) : Prop :=
  ∀ r ∈ st.recs, recKey r ∈ st.seen

/-- `stInv` is preserved by one loop iteration. -/
theorem stInv_processLine (psu : Nat → Option (Nat × String))
    (psf : String → PsResult) (st : BuildState) (line : String)
    (h : stInv st) : stInv (processLine psu psf st line) := by
  by_cases hv : (pySplit line).length < 10
  · rw [processLine_invalid psu psf st line hv]; exact h
  · by_cases hs : rowKey line ∈ st.seen
    · rw [processLine_seen psu psf st line hv hs]; exact h
    · rw [processLine_fresh psu psf st line hv hs]
      intro r hr
      rcases List.mem_append.mp hr with h1 | h1
      · exact List.mem_cons_of_mem _ (h r h1)
      · rw [List.mem_singleton.mp h1]
        exact List.mem_cons_self _ _

/-- `stInv` is preserved by the whole loop. -/
theorem stInv_foldl (psu : Nat → Option (Nat × String))
    (psf : String → PsResult) (xs : List String) (st : BuildState)
    (h : stInv st) : stInv (List.foldl (processLine psu psf) st xs) := by
  induction xs generalizing st with
  | nil => exact h
  | cons x xs ih =>
    rw [List.foldl_cons]
    exact ih _ (stInv_processLine psu psf st x h)

/-- A key registered by no valid row of the batch and absent from the
start state is still absent at the end. -/
theorem key_not_mem_foldl (psu : Nat → Option (Nat × String))
    (psf : String → PsResult) (xs : List String) (st : BuildState)
    (k : String) (hst : k ∉ st.seen)
    (hxs : ∀ r ∈ xs, ¬ (pySplit r).length < 10 → rowKey r ≠ k) :
    k ∉ (List.foldl (processLine psu psf) st xs).seen := by
  induction xs generalizing st with
  | nil => exact hst
  | cons x xs ih =>
    rw [List.foldl_cons]
    apply ih
    · by_cases hv : (pySplit x).length < 10
      · rw [processLine_invalid psu psf st x hv]; exact hst
      · by_cases hs : rowKey x ∈ st.seen
        · rw [processLine_seen psu psf st x hv hs]; exact hst
        · rw [processLine_fresh psu psf st x hv hs]
          intro hmem
          rcases List.mem_cons.mp hmem with h1 | h1
          · exact hxs x (List.mem_cons_self _ _) hv h1.symm
          · exact hst h1
    · exact fun r hr hv => hxs r (List.mem_cons_of_mem _ hr) hv

/-- Once a key is registered, later iterations add no record carrying
it: the filtered record list is frozen. -/
theorem filter_stable_foldl (psu : Nat → Option (Nat × String))
    (psf : String → PsResult) (xs : List String) (st : BuildState)
    (k : String) (hk : k ∈ st.seen) :
    ((List.foldl (processLine psu psf) st xs).recs.filter
        (fun r => recKey r == k))
      = st.recs.filter (fun r => recKey r == k) := by
  induction xs generalizing st with
  | nil => rfl
  | cons x xs ih =>
    rw [List.foldl_cons]
    by_cases hv : (pySplit x).length < 10
    · rw [processLine_invalid psu psf st x hv]; exact ih st hk
    · by_cases hs : rowKey x ∈ st.seen
      · rw [processLine_seen psu psf st x hv hs]; exact ih st hk
      · rw [processLine_fresh psu psf st x hv hs]
        have hne : rowKey x ≠ k := fun he => hs (he ▸ hk)
        rw [ih ⟨rowKey x :: st.seen, _⟩ (List.mem_cons_of_mem _ hk)]
        rw [List.filter_append]
        rw [show (([buildRecord psu psf (rowPid x) (rowName x) (rowPort x)]).filter
              (fun r => recKey r == k)) = [] by
            rw [List.filter_eq_nil_iff]
            intro r hr
            rw [List.mem_singleton.mp hr]
            simp only [Bool.not_eq_true]
            exact beq_eq_false_iff_ne.mpr hne]
        rw [List.append_nil]

/-- In a batch whose prefix contains no valid row keyed like `line`,
the records filtered to `line`'s key are exactly the one record built
from `line` itself: it is present, unique, and carries `line`'s
fields. -/
theorem filter_key_foldl_eq (psu : Nat → Option (Nat × String))
    (psf : String → PsResult) (pre post : List String) (line : String)
    (hval : ¬ (pySplit line).length < 10)
    (hfresh : ∀ r ∈ pre, ¬ (pySplit r).length < 10 →
        rowKey r ≠ rowKey line) :
    (buildRecords psu psf (pre ++ line :: post)).filter
        (fun r => recKey r == rowKey line)
      = [buildRecord psu psf (rowPid line) (rowName line) (rowPort line)] := by
  unfold buildRecords
  rw [List.foldl_append, List.foldl_cons]
  have hnm : rowKey line ∉
      (List.foldl (processLine psu psf) ⟨[], []⟩ pre).seen :=
    key_not_mem_foldl psu psf pre ⟨[], []⟩ (rowKey line)
      (List.not_mem_nil _) hfresh
  have hinv : stInv (List.foldl (processLine psu psf) ⟨[], []⟩ pre) :=
    stInv_foldl psu psf pre ⟨[], []⟩
      (fun r hr => absurd hr (List.not_mem_nil _))
  rw [processLine_fresh psu psf _ line hval hnm]
  rw [filter_stable_foldl psu psf post _ (rowKey line)
      (List.mem_cons_self _ _)]
  rw [List.filter_append]
  rw [show ((List.foldl (processLine psu psf) ⟨[], []⟩ pre).recs.filter
        (fun r => recKey r == rowKey line)) = [] by
      rw [List.filter_eq_nil_iff]
      intro r hr
      simp only [Bool.not_eq_true]
      exact beq_eq_false_iff_ne.mpr (fun he => hnm (he ▸ hinv r hr))]
  rw [List.nil_append]
  have htrue : (recKey (buildRecord psu psf (rowPid line) (rowName line)
      (rowPort line)) == rowKey line) = true := beq_iff_eq.mpr rfl
  rw [List.filter_cons, if_pos htrue, List.filter_nil]

/-- On a successful `lsof` invocation the function returns normally:
the records built from the data rows (everything after the header
line) and no diagnostic. -/
theorem glp_ok (psu : Nat → Option (Nat × String)) (psf : String → PsResult)
    (kf : Nat → Bool → KillOutcome) (ls : List String) :
    get_listening_processes ⟨LsofResult.ok ls, psu, psf, kf⟩
      = Except.ok (buildRecords psu psf (ls.drop 1), []) := by
  match ls with
  | [] => rfl
  | [a] => rfl
  | a :: b :: t =>
    have h : ¬ (a :: b :: t).length ≤ 1 := by
      simp only [List.length_cons]
      omega
    simp only [get_listening_processes]
    rw [if_neg h]

/-- C8: a raw row with fewer than 10 whitespace-separated fields is
skipped silently — the snapshot built with the malformed row present
equals the snapshot built without it, so neither the number nor the
content of the other rows' records changes. -/
theorem c8_malformed_row_skipped (psu : Nat → Option (Nat × String))
    (psf : String → PsResult) (kf : Nat → Bool → KillOutcome)
    (hdr bad : String) (xs ys : List String)
    (hbad : (pySplit bad).length < 10) :
    get_listening_processes
        ⟨LsofResult.ok (hdr :: (xs ++ bad :: ys)), psu, psf, kf⟩
      = get_listening_processes
        ⟨LsofResult.ok (hdr :: (xs ++ ys)), psu, psf, kf⟩ := by
  rw [glp_ok, glp_ok, List.drop_succ_cons, List.drop_succ_cons,
    List.drop_zero, List.drop_zero]
  unfold buildRecords
  rw [List.foldl_append, List.foldl_cons,
    processLine_invalid psu psf _ bad hbad, ← List.foldl_append]

/-- Closed instance of the C8 theorem: adding a short row to a
well-formed batch leaves the result unchanged. -/
theorem c8_malformed_row_witness :
    (pySplit "short row").length < 10
    ∧ get_listening_processes
        ⟨LsofResult.ok ["HEADER", rowW1, "short row"], psuW, psfW, kfW⟩
      = get_listening_processes
        ⟨LsofResult.ok ["HEADER", rowW1], psuW, psfW, kfW⟩ :=
  ⟨by decide,
   c8_malformed_row_skipped psuW psfW kfW "HEADER" "short row" [rowW1] []
     (by decide)⟩

/-- C7: two raw rows with the same `(pid, port)` key produce exactly
one record.  The snapshot with the duplicate row equals the snapshot
without it (the duplicate is silently discarded), and when the first
row is the first valid occurrence of the key, the records filtered to
that key are exactly the single record built from the first row's
fields. -/
theorem c7_dedup_first_wins (psu : Nat → Option (Nat × String))
    (psf : String → PsResult) (kf : Nat → Bool → KillOutcome)
    (hdr rowA rowB : String) (pre mid post : List String)
    (hvA : ¬ (pySplit rowA).length < 10)
    (hvB : ¬ (pySplit rowB).length < 10)
    (hkey : rowKey rowA = rowKey rowB)
    (hfresh : ∀ r ∈ pre, ¬ (pySplit r).length < 10 →
        rowKey r ≠ rowKey rowA) :
    get_listening_processes
        ⟨LsofResult.ok (hdr :: ((pre ++ rowA :: mid) ++ rowB :: post)),
         psu, psf, kf⟩
      = get_listening_processes
        ⟨LsofResult.ok (hdr :: ((pre ++ rowA :: mid) ++ post)), psu, psf, kf⟩
    ∧ (buildRecords psu psf ((pre ++ rowA :: mid) ++ rowB :: post)).filter
        (fun r => recKey r == rowKey rowA)
      = [buildRecord psu psf (rowPid rowA) (rowName rowA) (rowPort rowA)] := by
  constructor
  · rw [glp_ok, glp_ok, List.drop_succ_cons, List.drop_succ_cons,
      List.drop_zero, List.drop_zero]
    unfold buildRecords
    rw [foldl_dup_drop psu psf (pre ++ rowA :: mid) post rowB hvB
      ⟨rowA, List.mem_append_right _ (List.mem_cons_self _ _), hvA, hkey⟩]
  · rw [List.append_assoc]
    exact filter_key_foldl_eq psu psf pre (mid ++ rowB :: post) rowA hvA hfresh

/-- Closed instance of the C7 theorem on two rows sharing the key
`100:*:3000` with different name and file-descriptor fields. -/
theorem c7_dedup_witness :
    rowKey rowW1 = rowKey rowW1b
    ∧ get_listening_processes
        ⟨LsofResult.ok ["HEADER", rowW1, rowW1b], psuW, psfW, kfW⟩
      = get_listening_processes
        ⟨LsofResult.ok ["HEADER", rowW1], psuW, psfW, kfW⟩ :=
  ⟨by decide,
   (c7_dedup_first_wins psuW psfW kfW "HEADER" rowW1 rowW1b [] [] []
      (by decide) (by decide) (by decide)
      (fun r hr => absurd hr (List.not_mem_nil r))).1⟩

/-- C2: when the primary `psutil` lookup fails for the PID of a valid
first-seen row, the snapshot still succeeds and still contains that
row's record (no drop, no abort); the record carries the `ps`
fallback's parsed values when the fallback succeeds and the
`0`/`Details unavailable` sentinels when the fallback also fails. -/
theorem c2_per_process_fallback (psu : Nat → Option (Nat × String))
    (psf : String → PsResult) (kf : Nat → Bool → KillOutcome)
    (hdr line : String) (pre post : List String)
    (hval : ¬ (pySplit line).length < 10)
    (hfresh : ∀ r ∈ pre, ¬ (pySplit r).length < 10 →
        rowKey r ≠ rowKey line)
    (hfail : primary_lookup psu (rowPid line) = none) :
    (∃ procs logs,
       get_listening_processes
           ⟨LsofResult.ok (hdr :: (pre ++ line :: post)), psu, psf, kf⟩
         = Except.ok (procs, logs)
       ∧ buildRecord psu psf (rowPid line) (rowName line) (rowPort line)
           ∈ procs)
    ∧ (∀ m c, psDetails psf (rowPid line) = some (m, c) →
        (buildRecord psu psf (rowPid line) (rowName line)
            (rowPort line)).memory_kb = m
        ∧ (buildRecord psu psf (rowPid line) (rowName line)
            (rowPort line)).command = c)
    ∧ (psDetails psf (rowPid line) = none →
        (buildRecord psu psf (rowPid line) (rowName line)
            (rowPort line)).memory_kb = 0
        ∧ (buildRecord psu psf (rowPid line) (rowName line)
            (rowPort line)).command = "Details unavailable") := by
  refine ⟨?_, ?_, ?_⟩
  · refine ⟨buildRecords psu psf (pre ++ line :: post), [], ?_, ?_⟩
    · rw [glp_ok, List.drop_succ_cons, List.drop_zero]
    · apply List.mem_of_mem_filter
        (p := fun r => recKey r == rowKey line)
      rw [filter_key_foldl_eq psu psf pre post line hval hfresh]
      exact List.mem_cons_self _ _
  · intro m c h
    simp [buildRecord, hfail, ps_fallback, h]
  · intro h
    simp [buildRecord, hfail, ps_fallback, h]

/-- Closed instance of the C2 theorem: `psutil` fails for PID 200, the
`ps` fallback parses `512 python app.py`, and the built record carries
those values. -/
theorem c2_fallback_witness :
    primary_lookup psuW (rowPid rowW2) = none
    ∧ psDetails psfW (rowPid rowW2) = some (512, "python app.py")
    ∧ (buildRecord psuW psfW (rowPid rowW2) (rowName rowW2)
        (rowPort rowW2)).memory_kb = 512
    ∧ (buildRecord psuW psfW (rowPid rowW2) (rowName rowW2)
        (rowPort rowW2)).command = "python app.py" := by
  refine ⟨by decide, by decide, ?_⟩
  exact (c2_per_process_fallback psuW psfW kfW "HEADER" rowW2 [] []
    (by decide) (fun r hr => absurd hr (List.not_mem_nil r))
    (by decide)).2.1 512 "python app.py" (by decide)

/-- The bulk-kill loop attempts a graceful termination of every record
in order and counts exactly the successful attempts. -/
theorem bulkFold_spec (env : Env) (procs : List ProcRecord) :
    ∀ st : List KillAction × Nat,
      (bulkFold env st procs).1
        = st.1 ++ procs.map (fun p => (⟨p.pid, p.name, false⟩ : KillAction))
      ∧ (bulkFold env st procs).2
        = st.2 + (procs.filter
            (fun p => kill_process env p.pid p.name false)).length := by
  induction procs with
  | nil =>
    intro st
    exact ⟨(List.append_nil _).symm, rfl⟩
  | cons p ps ih =>
    intro st
    obtain ⟨h1, h2⟩ := ih
      (st.1 ++ [⟨p.pid, p.name, false⟩],
       if kill_process env p.pid p.name false then st.2 + 1 else st.2)
    constructor
    · rw [show bulkFold env st (p :: ps)
          = bulkFold env
              (st.1 ++ [⟨p.pid, p.name, false⟩],
               if kill_process env p.pid p.name false then st.2 + 1
               else st.2) ps from rfl]
      rw [h1, List.map_cons, List.append_assoc, List.singleton_append]
    · rw [show bulkFold env st (p :: ps)
          = bulkFold env
              (st.1 ++ [⟨p.pid, p.name, false⟩],
               if kill_process env p.pid p.name false then st.2 + 1
               else st.2) ps from rfl]
      rw [h2, List.filter_cons]
      by_cases hk : kill_process env p.pid p.name false
      · rw [if_pos hk, if_pos hk, List.length_cons]
        omega
      · rw [if_neg hk, if_neg hk]

/-- C4: with the bulk-kill prompt answered affirmatively, a graceful
termination is attempted for every one of the N records (an individual
failure does not abort the rest), and the summary line reports exactly
the number K of successful terminations out of N. -/
theorem c4_bulk_kill_accounting (env : Env) (confirmRaw forceRaw : String)
    (procs : List ProcRecord) (ha : is_affirmative confirmRaw = true) :
    (menu_step env "a" confirmRaw forceRaw procs).kills
      = procs.map (fun p => (⟨p.pid, p.name, false⟩ : KillAction))
    ∧ (menu_step env "a" confirmRaw forceRaw procs).kills.length
        = procs.length
    ∧ (menu_step env "a" confirmRaw forceRaw procs).logs
      = ["Killed "
          ++ toString (procs.filter
              (fun p => kill_process env p.pid p.name false)).length
          ++ "/" ++ toString procs.length ++ " processes"] := by
  have hc : pyLower (pyStrip "a") = "a" := by decide
  have h1 : (bulkFold env ([], 0) procs).1
      = procs.map (fun p => (⟨p.pid, p.name, false⟩ : KillAction)) := by
    simpa using (bulkFold_spec env procs ([], 0)).1
  have h2 : (bulkFold env ([], 0) procs).2
      = (procs.filter (fun p => kill_process env p.pid p.name false)).length := by
    simpa using (bulkFold_spec env procs ([], 0)).2
  simp only [menu_step, hc, if_true]
  rw [if_pos (show inYesList (pyLower (pyStrip confirmRaw)) = true from ha)]
  refine ⟨h1, ?_, ?_⟩
  · show (bulkFold env ([], 0) procs).1.length = procs.length
    rw [h1, List.length_map]
  · show ["Killed " ++ toString (bulkFold env ([], 0) procs).2 ++ "/"
        ++ toString procs.length ++ " processes"] = _
    rw [h2]

/-- Closed instance of the C4 theorem: of two records one termination
succeeds and one fails, all attempts are made and the summary reports
1 of 2. -/
theorem c4_bulk_kill_witness :
    is_affirmative " YES " = true
    ∧ (menu_step envW "a" " YES " "" [recW1, recW2]).kills
        = [⟨"100", "node", false⟩, ⟨"201", "py", false⟩]
    ∧ (menu_step envW "a" " YES " "" [recW1, recW2]).logs
        = ["Killed 1/2 processes"] :=
  ⟨by decide,
   ((c4_bulk_kill_accounting envW " YES " "" [recW1, recW2]
       (by decide)).1).trans (by decide),
   ((c4_bulk_kill_accounting envW " YES " "" [recW1, recW2]
       (by decide)).2.2).trans (by decide)⟩

set_option maxHeartbeats 1600000 in
/-- C5: at every destructive-action prompt, a reply other than a
case-insensitive `y`/`yes` (after stripping) leaves the kill list
empty — zero termination side effects — and conversely every attempted
termination presupposes an affirmative reply at the kill prompt, a
forced one additionally an affirmative reply at the force prompt. -/
theorem c5_confirmation_gating (env : Env)
    (choiceRaw confirmRaw forceRaw : String) (procs : List ProcRecord) :
    (is_affirmative confirmRaw = false →
        (menu_step env choiceRaw confirmRaw forceRaw procs).kills = [])
    ∧ (∀ a ∈ (menu_step env choiceRaw confirmRaw forceRaw procs).kills,
        is_affirmative confirmRaw = true
        ∧ (a.force = true → is_affirmative forceRaw = true)) := by
  constructor
  · intro hno
    have hno' : inYesList (pyLower (pyStrip confirmRaw)) = false := hno
    simp only [menu_step]
    split_ifs <;>
        (try split) <;>
        (try split_ifs) <;>
        first
          | rfl
          | (rw [‹inYesList (pyLower (pyStrip confirmRaw)) = true›] at hno'
             exact Bool.noConfusion hno')
  · intro a hmem
    simp only [menu_step] at hmem
    split_ifs at hmem <;>
        (try split at hmem) <;>
        (try split_ifs at hmem) <;>
        first
          | exact absurd hmem (List.not_mem_nil a)
          | (rw [show (bulkFold env ([], 0) procs).1
                 = procs.map (fun p => (⟨p.pid, p.name, false⟩ : KillAction))
               from by simpa using (bulkFold_spec env procs ([], 0)).1] at hmem
             obtain ⟨p, hp, rfl⟩ := List.mem_map.mp hmem
             exact ⟨‹inYesList (pyLower (pyStrip confirmRaw)) = true›,
               fun hf => by simp at hf⟩)
          | (rcases List.mem_cons.mp hmem with rfl | hmem2
             · exact ⟨‹inYesList (pyLower (pyStrip confirmRaw)) = true›,
                 fun hf => by simp at hf⟩
             · first
                 | exact absurd hmem2 (List.not_mem_nil a)
                 | (rw [List.mem_singleton] at hmem2
                    subst hmem2
                    exact ⟨‹inYesList (pyLower (pyStrip confirmRaw)) = true›,
                      fun _ => ‹inYesList (pyLower (pyStrip forceRaw)) = true›⟩))

/-- Closed instance of the C5 theorem: a declined single-kill prompt
produces no termination attempt. -/
theorem c5_gating_witness :
    is_affirmative "n" = false
    ∧ (menu_step envW "1" "n" "y" [recW1]).kills = [] :=
  ⟨by decide,
   (c5_confirmation_gating envW "1" "n" "y" [recW1]).1 (by decide)⟩

/-- Inserting an element only adds it: the old list is a sublist of
the result. -/
theorem sublist_insertDesc (a : NodeProc) (s : List NodeProc) :
    s.Sublist (insertDesc a s) := by
  induction s with
  | nil => exact List.nil_sublist _
  | cons b bs ih =>
    simp only [insertDesc]
    split_ifs
    · exact (List.Sublist.refl _).cons _
    · exact ih.cons₂ _

/-- Membership after insertion. -/
theorem mem_insertDesc {x a : NodeProc} {s : List NodeProc} :
    x ∈ insertDesc a s ↔ x = a ∨ x ∈ s := by
  induction s with
  | nil => simp [insertDesc]
  | cons b bs ih =>
    simp only [insertDesc]
    split_ifs
    · exact List.mem_cons
    · rw [List.mem_cons, ih, List.mem_cons]
      tauto

/-- Sorting preserves membership. -/
theorem mem_sortNodesDesc {x : NodeProc} {l : List NodeProc} (h : x ∈ l) :
    x ∈ sortNodesDesc l := by
  induction l with
  | nil => cases h
  | cons c cs ih =>
    rcases List.mem_cons.mp h with rfl | h2
    · exact mem_insertDesc.mpr (Or.inl rfl)
    · exact mem_insertDesc.mpr (Or.inr (ih h2))

/-- The inserted element lands before every already-present element
whose key does not exceed its own. -/
theorem pair_sublist_insertDesc (a b : NodeProc) (s : List NodeProc)
    (hb : b ∈ s) (hk : b.rss_kb ≤ a.rss_kb) :
    ([a, b]).Sublist (insertDesc a s) := by
  induction s with
  | nil => cases hb
  | cons d ds ih =>
    simp only [insertDesc]
    split_ifs with hcond
    · exact (List.singleton_sublist.mpr hb).cons₂ _
    · rcases List.mem_cons.mp hb with rfl | hb2
      · exact absurd hk hcond
      · exact (ih hb2).cons _

/-- Insertion keeps the list sorted by `rss_kb` descending. -/
theorem pairwise_insertDesc (a : NodeProc) (s : List NodeProc)
    (h : s.Pairwise (fun x y => y.rss_kb ≤ x.rss_kb)) :
    (insertDesc a s).Pairwise (fun x y => y.rss_kb ≤ x.rss_kb) := by
  induction s with
  | nil => simp [insertDesc]
  | cons d ds ih =>
    rcases List.pairwise_cons.mp h with ⟨hd, hds⟩
    simp only [insertDesc]
    split_ifs with hcond
    · rw [List.pairwise_cons]
      refine ⟨?_, h⟩
      intro x hx
      rcases List.mem_cons.mp hx with rfl | hx2
      · exact hcond
      · exact le_trans (hd x hx2) hcond
    · rw [List.pairwise_cons]
      refine ⟨?_, ih hds⟩
      intro x hx
      rcases mem_insertDesc.mp hx with rfl | hx2
      · exact Nat.le_of_lt (Nat.lt_of_not_le hcond)
      · exact hd x hx2

/-- C9: the line 311 sort orders the auxiliary records by resident
memory descending and is stable — any two records tied on `rss_kb`
keep their original relative order in the output. -/
theorem c9_sort_stable (l : List NodeProc) :
    (sortNodesDesc l).Pairwise (fun x y => y.rss_kb ≤ x.rss_kb)
    ∧ ∀ a b : NodeProc, ([a, b]).Sublist l → a.rss_kb = b.rss_kb →
        ([a, b]).Sublist (sortNodesDesc l) := by
  induction l with
  | nil =>
    refine ⟨List.Pairwise.nil, ?_⟩
    intro a b h _
    cases h
  | cons c cs ih =>
    obtain ⟨ihp, ihs⟩ := ih
    refine ⟨pairwise_insertDesc c _ ihp, ?_⟩
    intro a b hab hk
    cases hab with
    | cons _ h =>
      exact (ihs a b h hk).trans (sublist_insertDesc c _)
    | cons₂ _ h =>
      exact pair_sublist_insertDesc c b (sortNodesDesc cs)
        (mem_sortNodesDesc (List.singleton_sublist.mp h))
        (le_of_eq hk.symm)

/-- Closed instance of the C9 theorem: the two records tied at 5 KB
keep their enumeration order behind the 9 KB record. -/
theorem c9_stability_witness :
    ([nodeA, nodeC]).Sublist [nodeA, nodeB, nodeC]
    ∧ nodeA.rss_kb = nodeC.rss_kb
    ∧ ([nodeA, nodeC]).Sublist (sortNodesDesc [nodeA, nodeB, nodeC]) :=
  ⟨by decide, by decide,
   (c9_sort_stable [nodeA, nodeB, nodeC]).2 nodeA nodeC
     (by decide) (by decide)⟩
